import Mathlib

/-!
Verification of the Canvas assignment-report engine (Go sources) against its
natural-language specification.

Shallow embedding conventions:
* `time.Time` values are modelled as `ℤ`, counting seconds in the local time
  zone since an epoch that falls on a Thursday at midnight (as the Unix epoch
  does).  `AddDate(0,0,n)` is `+ n*86400`, `time.Date(y,m,d,0,0,0,0,loc)`
  applied to a time's own date (`truncateToDay`) is "subtract the second-of-day",
  and `Weekday` is day-index + 4 mod 7 (Sunday = 0 … Saturday = 6).
  `.Local()` is the identity: the whole report runs in one fixed zone.
* Go `float64` arithmetic is modelled as exact rational (`ℚ`) arithmetic.
* Go maps keyed by `int` are modelled as `Nat → Option _` update functions
  (insertion order irrelevant, later insert wins) or, where the code iterates
  over the map's values, as association lists with unique keys (`upsertState`).
* The Go pointer comparison `cat == category` inside the weighted-impact
  helpers identifies the one map slot holding the assignment's own category;
  we model it by passing that category separately from the list of the other
  categories' states.
-/

/-- Seconds in one civil day of the fixed-offset model. -/
def secondsPerDay : ℤ := 86400

/-- Model of `30 * 24 * time.Hour` (the `oneMonthAgo` constant), in seconds. -/
def oneMonthAgo : ℤ := 30 * 24 * 3600

/-- Model of `time.Date(t.Year(), t.Month(), t.Day(), 0, 0, 0, 0, t.Location())`:
midnight of the day containing `t`. -/
def truncateToDay (t : ℤ) : ℤ := t - t % secondsPerDay

/-- Model of `t.Weekday()` (Sunday = 0 … Saturday = 6); the epoch is a Thursday. -/
def weekday (t : ℤ) : ℤ := (t / secondsPerDay + 4) % 7

/-- `nextSchoolDay` from the source: Friday and Saturday jump to Monday,
every other day advances one calendar day. -/
def nextSchoolDay (date : ℤ) : ℤ :=
  if weekday date = 5 then date + 3 * secondsPerDay
  else if weekday date = 6 then date + 2 * secondsPerDay
  else date + secondsPerDay

/-- `endOfSchoolWeek` from the source: the upcoming Friday (the following
Friday when today already is Friday, or Saturday). -/
def endOfSchoolWeek (date : ℤ) : ℤ :=
  if weekday date = 0 then date + 5 * secondsPerDay
  else if weekday date = 6 then date + 6 * secondsPerDay
  else if weekday date = 5 then date + 7 * secondsPerDay
  else date + (5 - weekday date) * secondsPerDay

/-- The `Submission` record of the source (scores as exact rationals). -/
structure Submission where
  assignmentID : Nat
  submittedAt : Option ℤ
  gradedAt : Option ℤ
  score : Option ℚ
  missing : Bool
  excused : Bool
  gradeMatchesCurrentSubmission : Option Bool
deriving DecidableEq, Repr

/-- The `GradingPeriod` record (only the fields the engine reads). -/
structure GradingPeriod where
  startDate : Option ℤ
  endDate : Option ℤ
deriving DecidableEq, Repr

/-- The `AssignmentInGroup` record of the source. -/
structure AssignmentInGroup where
  id : Nat
  pointsPossible : Option ℚ
  dueAt : Option ℤ
deriving DecidableEq, Repr

/-- The `AssignmentGroup` record of the source. -/
structure AssignmentGroup where
  id : Nat
  name : String
  groupWeight : ℚ
  assignments : List AssignmentInGroup
deriving DecidableEq, Repr

/-- The `Assignment` record of the source (the raw per-course assignment). -/
structure Assignment where
  id : Nat
  name : String
  dueAt : Option ℤ
  pointsPossible : Option ℚ
deriving DecidableEq, Repr

/-- The `AssignmentImpact` record of the source. -/
structure AssignmentImpact where
  Gain : ℚ
  Loss : ℚ
  IsWeighted : Bool
deriving DecidableEq, Repr

/-- The `EnrichedAssignment` record of the source; `DueAt` is always present
because enrichment drops assignments without a due date. -/
structure EnrichedAssignment where
  name : String
  courseName : String
  categoryName : String
  dueAt : ℤ
  pointsPossible : Option ℚ
  submission : Option Submission
  status : String
  impact : Option AssignmentImpact
deriving DecidableEq, Repr

/-- `isCompleted` from the source: a submission with a submitted or graded
timestamp, or flagged excused. -/
def isCompleted (sub : Option Submission) : Bool :=
  match sub with
  | none => false
  | some s => s.submittedAt.isSome || s.gradedAt.isSome || s.excused

/-- `awaitingGrade` from the source: submitted but the grade no longer matches
the current submission (resubmitted, pending re-grade). -/
def awaitingGrade (sub : Option Submission) : Bool :=
  match sub with
  | none => false
  | some s =>
    match s.submittedAt with
    | none => false
    | some _ =>
      match s.gradeMatchesCurrentSubmission with
      | none => false
      | some b => !b

/-- Go `int(x)` truncation toward zero of a rational points value. -/
def ratToInt (q : ℚ) : ℤ := Int.tdiv q.num q.den

/-- `determineStatus` from the source. -/
def determineStatus (a : EnrichedAssignment) : String :=
  match a.submission with
  | some s =>
    if s.score = some 0 ∧ s.gradedAt.isSome then
      match a.pointsPossible with
      | some pp => "Graded 0/" ++ toString (ratToInt pp)
      | none => "Graded 0"
    else "Missing"
  | none => "Missing"

/-- The per-submission missing test inside `missingAssignments`:
`sub == nil || sub.Missing || (sub.Score != nil && *sub.Score == 0 && sub.GradedAt != nil)`. -/
def isMissingSub (sub : Option Submission) : Bool :=
  match sub with
  | none => true
  | some s =>
    s.missing ||
      (match s.score with
       | some sc => decide (sc = 0) && s.gradedAt.isSome
       | none => false)

/-- Insertion step of the due-date sort used by all three classifiers. -/
def insertByDue (a : EnrichedAssignment) : List EnrichedAssignment → List EnrichedAssignment
  | [] => [a]
  | b :: t => if a.dueAt ≤ b.dueAt then a :: b :: t else b :: insertByDue a t

/-- The classifiers' `sort.Slice(result, … DueAt.Before …)`, modelled as an
insertion sort by due timestamp (same sorted order on distinct keys). -/
def sortByDue : List EnrichedAssignment → List EnrichedAssignment
  | [] => []
  | a :: t => insertByDue a (sortByDue t)

/-- The selection predicate of `missingAssignments` (due in the past, within
the 30-day window unless `showAll`, missing, and not awaiting a re-grade). -/
def selectsMissing (now : ℤ) (showAll : Bool) (a : EnrichedAssignment) : Bool :=
  !decide (now < a.dueAt) &&
    (showAll || !decide (a.dueAt < now - oneMonthAgo)) &&
    isMissingSub a.submission &&
    !awaitingGrade a.submission

/-- `missingAssignments` from the source, with `time.Now()` and `r.showAll`
passed explicitly; copies into the bucket get their `Status` filled in. -/
def missingAssignments (now : ℤ) (showAll : Bool)
    (assignments : List EnrichedAssignment) : List EnrichedAssignment :=
  sortByDue ((assignments.filter (selectsMissing now showAll)).map
    (fun a => { a with status := determineStatus a }))

/-- The selection predicate of `upcomingAssignments`: due today with the due
time still ahead, or due on the school-calendar "tomorrow". -/
def selectsUpcoming (now : ℤ) (a : EnrichedAssignment) : Bool :=
  let today := truncateToDay now
  let tomorrow := nextSchoolDay today
  let dueDate := truncateToDay a.dueAt
  (decide (dueDate = today) && decide (now < a.dueAt)) || decide (dueDate = tomorrow)

/-- `upcomingAssignments` from the source. -/
def upcomingAssignments (now : ℤ)
    (assignments : List EnrichedAssignment) : List EnrichedAssignment :=
  sortByDue (assignments.filter (selectsUpcoming now))

/-- The selection predicate of `weekAheadAssignments`, including the guard
that the week-ahead window is non-empty. -/
def selectsWeekAhead (now : ℤ) (a : EnrichedAssignment) : Bool :=
  let today := truncateToDay now
  let tomorrow := nextSchoolDay today
  let weekStart := tomorrow + secondsPerDay
  let weekEnd := endOfSchoolWeek today
  let dueDate := truncateToDay a.dueAt
  !decide (weekEnd < weekStart) &&
    decide (weekStart ≤ dueDate) && decide (dueDate ≤ weekEnd)

/-- `weekAheadAssignments` from the source (early `nil` return when the
computed start is after the computed end). -/
def weekAheadAssignments (now : ℤ)
    (assignments : List EnrichedAssignment) : List EnrichedAssignment :=
  let today := truncateToDay now
  let tomorrow := nextSchoolDay today
  let weekStart := tomorrow + secondsPerDay
  let weekEnd := endOfSchoolWeek today
  if weekEnd < weekStart then []
  else
    sortByDue (assignments.filter (fun a =>
      decide (weekStart ≤ truncateToDay a.dueAt) && decide (truncateToDay a.dueAt ≤ weekEnd)))

/-- The `categoryState` record of the source: accumulated earned points,
possible points and weight for one category. -/
structure categoryState where
  points : ℚ
  possible : ℚ
  weight : ℚ
deriving DecidableEq, Repr

/-- The `submissionInfo` record of the source. -/
structure submissionInfo where
  score : Option ℚ
  missing : Bool
  graded : Bool
deriving DecidableEq, Repr

/-- `assignmentInPeriod` from the source: fail-open when the period or the
due date is absent, otherwise the due date must lie inside the period. -/
def assignmentInPeriod (a : AssignmentInGroup) (period : Option GradingPeriod) : Bool :=
  match period with
  | none => true
  | some p =>
    match p.startDate, p.endDate with
    | some s, some e =>
      match a.dueAt with
      | none => true
      | some d => !decide (d < s) && !decide (e < d)
    | _, _ => true

/-- Pointwise map update: models writing `m[k] = v` into a Go map. -/
def updateFn {α : Type} (m : Nat → Option α) (k : Nat) (v : α) : Nat → Option α :=
  fun k' => if k' = k then some v else m k'

/-- Extraction of a `submissionInfo` from one `Submission` (the loop body that
fills `subInfoByAssignment`). -/
def submissionInfoOf (sub : Submission) : submissionInfo :=
  { score := sub.score, missing := sub.missing, graded := sub.gradedAt.isSome }

/-- The `subInfoByAssignment` map of the source (later submissions for the
same assignment id overwrite earlier ones, as in a Go map). -/
def subInfoByAssignment (submissions : List Submission) : Nat → Option submissionInfo :=
  submissions.foldl (fun m sub => updateFn m sub.assignmentID (submissionInfoOf sub)) (fun _ => none)

/-- The `isGraded` closure of the source: a score counts in the totals unless
it is a missing-flagged zero with no explicit grading timestamp. -/
def isGraded (m : Nat → Option submissionInfo) (aid : Nat) : Bool × ℚ :=
  match m aid with
  | none => (false, 0)
  | some info =>
    match info.score with
    | none => (false, 0)
    | some s =>
      if info.missing ∧ s = 0 ∧ info.graded = false then (false, 0)
      else (true, s)

/-- Accumulation of one category's state over its member assignments
(the inner loop building `categoryStates`). -/
def buildCategoryState (isG : Nat → Bool × ℚ) (period : Option GradingPeriod)
    (g : AssignmentGroup) : categoryState :=
  g.assignments.foldl
    (fun st a =>
      match a.pointsPossible with
      | none => st
      | some pp =>
        if pp = 0 then st
        else if !assignmentInPeriod a period then st
        else
          let gs := isG a.id
          if gs.1 then { st with points := st.points + gs.2, possible := st.possible + pp }
          else st)
    { points := 0, possible := 0, weight := g.groupWeight }

/-- Insert-or-replace on the association list modelling the
`categoryStates` map (keys stay unique). -/
def upsertState : List (Nat × categoryState) → Nat → categoryState → List (Nat × categoryState)
  | [], k, v => [(k, v)]
  | (k', v') :: t, k, v =>
    if k' = k then (k, v) :: t else (k', v') :: upsertState t k v

/-- Lookup on the association list modelling the `categoryStates` map. -/
def lookupState : List (Nat × categoryState) → Nat → Option categoryState
  | [], _ => none
  | (k', v') :: t, k => if k' = k then some v' else lookupState t k

/-- The values of every map slot other than the one holding the assignment's
own category (the `cat == category` pointer test picks out that slot). -/
def statesValuesExcept (m : List (Nat × categoryState)) (k : Nat) : List categoryState :=
  (m.filter (fun p => !decide (p.1 = k))).map Prod.snd

/-- The `weightedSum` contribution of the categories other than the
assignment's own one inside `calcOverall` (skipping empty categories). -/
def weightedSumOthers (others : List categoryState) : ℚ :=
  (others.map (fun c => if 0 < c.possible then c.points / c.possible * 100 * c.weight else 0)).sum

/-- The `weightSum` contribution of the categories other than the
assignment's own one inside `calcOverall`. -/
def weightSumOthers (others : List categoryState) : ℚ :=
  (others.map (fun c => if 0 < c.possible then c.weight else 0)).sum

/-- The `calcOverall` closure of `calculateWeightedImpact`: weighted average
of category percentages, substituting `(catPoints, catPossible)` for the
assignment's own category when `includeCategory` holds. -/
def calcOverall (category : categoryState) (others : List categoryState)
    (catPoints catPossible : ℚ) (includeCategory : Bool) : ℚ :=
  let ws := (if includeCategory ∧ 0 < catPossible
             then catPoints / catPossible * 100 * category.weight else 0) +
            weightedSumOthers others
  let wt := (if includeCategory ∧ 0 < catPossible then category.weight else 0) +
            weightSumOthers others
  if wt = 0 then 0 else ws / wt

/-- `calculateWeightedImpact` from the source (ungraded assignment in a
weighted course); `others` models the map entries that are not the
assignment's own category. -/
def calculateWeightedImpact (category : categoryState) (others : List categoryState)
    (assignmentPts currentOverall : ℚ) : AssignmentImpact :=
  if category.weight = 0 then { Gain := 0, Loss := 0, IsWeighted := false }
  else
    let calcCurrentOverall :=
      calcOverall category others category.points category.possible (decide (0 < category.possible))
    let bestOverall :=
      calcOverall category others (category.points + assignmentPts)
        (category.possible + assignmentPts) true
    let worstOverall :=
      calcOverall category others category.points (category.possible + assignmentPts) true
    { Gain := bestOverall - calcCurrentOverall,
      Loss := calcCurrentOverall - worstOverall,
      IsWeighted := false }

/-- `calculateNonWeightedImpact` from the source (ungraded assignment,
flat points-over-possible course). -/
def calculateNonWeightedImpact (totalPoints totalPossible assignmentPts currentOverall : ℚ) :
    AssignmentImpact :=
  let currentPct := if 0 < totalPossible then totalPoints / totalPossible * 100 else 0
  let bestPts := totalPoints + assignmentPts
  let bestPossible := totalPossible + assignmentPts
  let bestPct := if 0 < bestPossible then bestPts / bestPossible * 100 else 0
  let worstPts := totalPoints
  let worstPossible := totalPossible + assignmentPts
  let worstPct := if 0 < worstPossible then worstPts / worstPossible * 100 else 0
  { Gain := bestPct - currentPct, Loss := currentPct - worstPct, IsWeighted := false }

/-- The `calcOverall` closure of `calculateGradedZeroWeightedImpact` (the
assignment's own category is always included; empty category yields 0). -/
def calcOverallGZ (category : categoryState) (others : List categoryState)
    (catPoints catPossible : ℚ) : ℚ :=
  if catPossible = 0 then 0
  else
    let catPct := catPoints / catPossible * 100
    let ws := catPct * category.weight + weightedSumOthers others
    let wt := category.weight + weightSumOthers others
    if wt = 0 then 0 else ws / wt

/-- `calculateGradedZeroWeightedImpact` from the source: the zero score is
already counted, the best case adds the points to the numerator only, and
the loss is pinned at 0. -/
def calculateGradedZeroWeightedImpact (category : categoryState) (others : List categoryState)
    (assignmentPts currentOverall : ℚ) : AssignmentImpact :=
  if category.weight = 0 then { Gain := 0, Loss := 0, IsWeighted := false }
  else
    let calcCurrentOverall := calcOverallGZ category others category.points category.possible
    let bestOverall :=
      calcOverallGZ category others (category.points + assignmentPts) category.possible
    { Gain := bestOverall - calcCurrentOverall, Loss := 0, IsWeighted := false }

/-- `calculateGradedZeroNonWeightedImpact` from the source. -/
def calculateGradedZeroNonWeightedImpact (totalPoints totalPossible assignmentPts currentOverall : ℚ) :
    AssignmentImpact :=
  let currentPct := if 0 < totalPossible then totalPoints / totalPossible * 100 else 0
  let bestPts := totalPoints + assignmentPts
  let bestPossible := totalPossible
  let bestPct := if 0 < bestPossible then bestPts / bestPossible * 100 else 0
  { Gain := bestPct - currentPct, Loss := 0, IsWeighted := false }

/-- `calculateAssignmentImpacts` from the source: builds the per-category
states and produces the impacts map (here a `Nat → Option AssignmentImpact`
lookup, `none` for assignments that get no impact). -/
def calculateAssignmentImpacts (groups : List AssignmentGroup) (submissions : List Submission)
    (currentOverall : ℚ) (weighted : Bool) (period : Option GradingPeriod) :
    Nat → Option AssignmentImpact :=
  let isG := isGraded (subInfoByAssignment submissions)
  let states := groups.foldl (fun m g => upsertState m g.id (buildCategoryState isG period g)) []
  let totalPoints := if weighted then 0 else (states.map (fun p => p.2.points)).sum
  let totalPossible := if weighted then 0 else (states.map (fun p => p.2.possible)).sum
  groups.foldl
    (fun impacts g =>
      g.assignments.foldl
        (fun impacts a =>
          match a.pointsPossible with
          | none => impacts
          | some pp =>
            if pp = 0 then impacts
            else if !assignmentInPeriod a period then impacts
            else
              let state := (lookupState states g.id).getD { points := 0, possible := 0, weight := 0 }
              let others := statesValuesExcept states g.id
              let gs := isG a.id
              if gs.1 ∧ 0 < gs.2 then impacts
              else
                let base :=
                  if gs.1 ∧ gs.2 = 0 then
                    if weighted then
                      calculateGradedZeroWeightedImpact state others pp currentOverall
                    else
                      calculateGradedZeroNonWeightedImpact totalPoints totalPossible pp currentOverall
                  else
                    if weighted then
                      calculateWeightedImpact state others pp currentOverall
                    else
                      calculateNonWeightedImpact totalPoints totalPossible pp currentOverall
                updateFn impacts a.id { base with IsWeighted := weighted })
        impacts)
    (fun _ => none)

/-- The enrichment loop of `fetchCourseAssignments` (lines joining raw
assignments with submissions, category names and impacts): assignments with
no due date are skipped. -/
def enrichAssignments (courseName : String) (categoryByAssignment : Nat → String)
    (submissionsByID : Nat → Option Submission) (impacts : Nat → Option AssignmentImpact)
    (rawAssignments : List Assignment) : List EnrichedAssignment :=
  rawAssignments.foldr
    (fun a acc =>
      match a.dueAt with
      | none => acc
      | some d =>
        { name := a.name, courseName := courseName, categoryName := categoryByAssignment a.id,
          dueAt := d, pointsPossible := a.pointsPossible, submission := submissionsByID a.id,
          status := "", impact := impacts a.id } :: acc)
    []

/-! Concrete data used by counterexamples and witnesses. -/

/-- Category A of the weighted two-category scenario: weight 40, 190/200 points. -/
def categoryA : categoryState := { points := 190, possible := 200, weight := 40 }

/-- Category B of the weighted two-category scenario: weight 60, empty (0/0). -/
def categoryB : categoryState := { points := 0, possible := 0, weight := 60 }

/-- A submission flagged both missing and excused, never submitted, ungraded. -/
def subBothFlags : Submission :=
  { assignmentID := 21, submittedAt := none, gradedAt := none, score := none,
    missing := true, excused := true, gradeMatchesCurrentSubmission := none }

/-- An assignment due in the past carrying `subBothFlags`. -/
def aBothFlags : EnrichedAssignment :=
  { name := "Essay", courseName := "English", categoryName := "", dueAt := 863000,
    pointsPossible := some 8, submission := some subBothFlags, status := "", impact := none }

/-- A second missing+excused submission for the general-theorem witness. -/
def subBothFlagsW : Submission :=
  { assignmentID := 22, submittedAt := none, gradedAt := some 700, score := none,
    missing := true, excused := true, gradeMatchesCurrentSubmission := none }

/-- A second past-due assignment carrying `subBothFlagsW`. -/
def aBothFlagsW : EnrichedAssignment :=
  { name := "Worksheet", courseName := "English", categoryName := "", dueAt := 800000,
    pointsPossible := some 4, submission := some subBothFlagsW, status := "", impact := none }

/-- A submission info slot used by the graded-test witness. -/
def infoGradedW : submissionInfo := { score := some 40, missing := false, graded := true }

/-- A one-slot submission-info map used by the graded-test witness. -/
def subInfoMapW : Nat → Option submissionInfo :=
  fun aid => if aid = 5 then some infoGradedW else none

/-- Unweighted course with one weight-0 group: a 100-point assignment graded
90 and an ungraded 25-point assignment. -/
def groupsZeroWeight : List AssignmentGroup :=
  [{ id := 7, name := "HW", groupWeight := 0,
     assignments := [{ id := 11, pointsPossible := some 100, dueAt := some 0 },
                     { id := 12, pointsPossible := some 25, dueAt := some 0 }] }]

/-- The submissions of `groupsZeroWeight` (assignment 11 graded 90/100). -/
def submissionsZeroWeight : List Submission :=
  [{ assignmentID := 11, submittedAt := none, gradedAt := some 5, score := some 90,
     missing := false, excused := false, gradeMatchesCurrentSubmission := none }]

/-- Unweighted course whose group holds a graded no-due-date assignment (id 1,
50 possible, graded 40), an ungraded dated assignment (id 2) and an ungraded
no-due-date assignment (id 3). -/
def groupsNoDue : List AssignmentGroup :=
  [{ id := 1, name := "G", groupWeight := 0,
     assignments := [{ id := 1, pointsPossible := some 50, dueAt := none },
                     { id := 2, pointsPossible := some 10, dueAt := some 100 },
                     { id := 3, pointsPossible := some 20, dueAt := none }] }]

/-- `groupsNoDue` with the graded no-due-date assignment removed. -/
def groupsNoDueless : List AssignmentGroup :=
  [{ id := 1, name := "G", groupWeight := 0,
     assignments := [{ id := 2, pointsPossible := some 10, dueAt := some 100 },
                     { id := 3, pointsPossible := some 20, dueAt := none }] }]

/-- The submissions shared by `groupsNoDue` and `groupsNoDueless`. -/
def submissionsNoDue : List Submission :=
  [{ assignmentID := 1, submittedAt := none, gradedAt := some 5, score := some 40,
     missing := false, excused := false, gradeMatchesCurrentSubmission := none }]

/-- A submitted assignment awaiting a re-grade (grade no longer matches). -/
def subRegrade : Submission :=
  { assignmentID := 31, submittedAt := some 1000, gradedAt := none, score := none,
    missing := false, excused := false, gradeMatchesCurrentSubmission := some false }

/-- An assignment due on the school-calendar tomorrow of `now = 0`
(epoch Thursday), carrying `subRegrade`. -/
def aRegrade : EnrichedAssignment :=
  { name := "Quiz", courseName := "Math", categoryName := "", dueAt := 129600,
    pointsPossible := some 10, submission := some subRegrade, status := "", impact := none }

/-- A missing assignment (no submission) due in the past, for witnesses. -/
def aNoSub : EnrichedAssignment :=
  { name := "Lab", courseName := "Science", categoryName := "", dueAt := 863000,
    pointsPossible := some 10, submission := none, status := "", impact := none }

/-- An assignment due on the school-calendar tomorrow of `now = 0`, no
submission, used by the bucket-disjointness witness. -/
def aTomorrow : EnrichedAssignment :=
  { name := "Reading", courseName := "History", categoryName := "", dueAt := 130000,
    pointsPossible := some 5, submission := none, status := "", impact := none }

/-- A raw assignment with no due date, for the enrichment witness. -/
def aNoDueRaw : Assignment :=
  { id := 41, name := "Extra credit", dueAt := none, pointsPossible := some 5 }

/-! Helper lemmas about the classifiers and the calendar arithmetic. -/

lemma mem_insertByDue {x a : EnrichedAssignment} {l : List EnrichedAssignment} :
    x ∈ insertByDue a l ↔ x = a ∨ x ∈ l := by
  induction l with
  | nil => simp [insertByDue]
  | cons b t ih =>
    simp only [insertByDue]
    split_ifs
    · simp
    · simp [ih, List.mem_cons]
      tauto

lemma mem_sortByDue {x : EnrichedAssignment} {l : List EnrichedAssignment} :
    x ∈ sortByDue l ↔ x ∈ l := by
  induction l with
  | nil => simp [sortByDue]
  | cons a t ih => simp [sortByDue, mem_insertByDue, ih]

lemma mem_missingAssignments {now : ℤ} {showAll : Bool} {l : List EnrichedAssignment}
    {x : EnrichedAssignment} :
    x ∈ missingAssignments now showAll l ↔
      ∃ a, a ∈ l ∧ selectsMissing now showAll a = true ∧
        x = { a with status := determineStatus a } := by
  simp only [missingAssignments, mem_sortByDue, List.mem_map, List.mem_filter]
  constructor
  · rintro ⟨a, ⟨h1, h2⟩, rfl⟩
    exact ⟨a, h1, h2, rfl⟩
  · rintro ⟨a, h1, h2, rfl⟩
    exact ⟨a, ⟨h1, h2⟩, rfl⟩

lemma mem_upcomingAssignments {now : ℤ} {l : List EnrichedAssignment} {x : EnrichedAssignment} :
    x ∈ upcomingAssignments now l ↔ x ∈ l ∧ selectsUpcoming now x = true := by
  simp [upcomingAssignments, mem_sortByDue, List.mem_filter]

lemma mem_weekAheadAssignments {now : ℤ} {l : List EnrichedAssignment} {x : EnrichedAssignment} :
    x ∈ weekAheadAssignments now l ↔ x ∈ l ∧ selectsWeekAhead now x = true := by
  simp only [weekAheadAssignments, selectsWeekAhead]
  split_ifs with h
  · simp [h]
  · simp [mem_sortByDue, List.mem_filter, h]

lemma truncate_bounds (t : ℤ) : truncateToDay t ≤ t ∧ t < truncateToDay t + secondsPerDay := by
  unfold truncateToDay secondsPerDay
  omega

lemma nextSchoolDay_bounds (d : ℤ) :
    d + secondsPerDay ≤ nextSchoolDay d ∧ nextSchoolDay d ≤ d + 3 * secondsPerDay := by
  unfold nextSchoolDay secondsPerDay
  split_ifs <;> omega

lemma selectsMissing_past {now : ℤ} {showAll : Bool} {a : EnrichedAssignment}
    (h : selectsMissing now showAll a = true) : ¬ now < a.dueAt := by
  simp only [selectsMissing, Bool.and_eq_true, Bool.not_eq_true',
    decide_eq_false_iff_not] at h
  exact h.1.1.1

lemma selectsMissing_notAwaiting {now : ℤ} {showAll : Bool} {a : EnrichedAssignment}
    (h : selectsMissing now showAll a = true) : awaitingGrade a.submission = false := by
  simp only [selectsMissing, Bool.and_eq_true, Bool.not_eq_true',
    decide_eq_false_iff_not] at h
  exact h.2

lemma selectsUpcoming_cases {now : ℤ} {a : EnrichedAssignment}
    (h : selectsUpcoming now a = true) :
    (truncateToDay a.dueAt = truncateToDay now ∧ now < a.dueAt) ∨
      truncateToDay a.dueAt = nextSchoolDay (truncateToDay now) := by
  simpa only [selectsUpcoming, Bool.or_eq_true, Bool.and_eq_true, decide_eq_true_eq] using h

lemma selectsUpcoming_future {now : ℤ} {a : EnrichedAssignment}
    (h : selectsUpcoming now a = true) : now < a.dueAt := by
  rcases selectsUpcoming_cases h with ⟨_, h2⟩ | hd
  · exact h2
  · have h1 := truncate_bounds now
    have h2 := truncate_bounds a.dueAt
    have h3 := nextSchoolDay_bounds (truncateToDay now)
    linarith [hd ▸ h2.1]

lemma selectsWeekAhead_far {now : ℤ} {a : EnrichedAssignment}
    (h : selectsWeekAhead now a = true) :
    nextSchoolDay (truncateToDay now) + secondsPerDay ≤ truncateToDay a.dueAt := by
  simp only [selectsWeekAhead, Bool.and_eq_true, decide_eq_true_eq] at h
  exact h.1.2

lemma secondsPerDay_pos : 0 < secondsPerDay := by
  unfold secondsPerDay
  norm_num

/-! Helper lemmas about the weighted-average arithmetic. -/

lemma othersSums_bounds (others : List categoryState)
    (h : ∀ c ∈ others, 0 ≤ c.points ∧ c.points ≤ c.possible ∧ 0 ≤ c.weight) :
    0 ≤ weightSumOthers others ∧ 0 ≤ weightedSumOthers others ∧
      weightedSumOthers others ≤ 100 * weightSumOthers others := by
  induction others with
  | nil => simp [weightSumOthers, weightedSumOthers]
  | cons c t ih =>
    obtain ⟨hp0, hpq, hw0⟩ := h c (List.mem_cons_self c t)
    obtain ⟨h1, h2, h3⟩ := ih (fun x hx => h x (List.mem_cons_of_mem _ hx))
    simp only [weightSumOthers, weightedSumOthers, List.map_cons, List.sum_cons] at *
    by_cases hq : 0 < c.possible
    · have hpct : c.points / c.possible ≤ 1 := by
        rw [div_le_one hq]
        exact hpq
      have hd0 : 0 ≤ c.points / c.possible := div_nonneg hp0 hq.le
      have hterm0 : 0 ≤ c.points / c.possible * 100 * c.weight := by positivity
      have hterm1 : c.points / c.possible * 100 * c.weight ≤ 100 * c.weight := by
        have h100 : c.points / c.possible * 100 ≤ 100 := by linarith
        nlinarith
      rw [if_pos hq, if_pos hq]
      exact ⟨by linarith, by linarith, by linarith⟩
    · rw [if_neg hq, if_neg hq]
      exact ⟨by linarith, by linarith, by linarith⟩

lemma calcOverall_incl (category : categoryState) (others : List categoryState)
    (cp cq : ℚ) (h : 0 < cq) :
    calcOverall category others cp cq true =
      if category.weight + weightSumOthers others = 0 then 0
      else (cp / cq * 100 * category.weight + weightedSumOthers others) /
        (category.weight + weightSumOthers others) := by
  simp [calcOverall, h]

lemma calcOverall_excl (category : categoryState) (others : List categoryState)
    (cp cq : ℚ) (h : ¬ 0 < cq) (b : Bool) :
    calcOverall category others cp cq b =
      if weightSumOthers others = 0 then 0
      else weightedSumOthers others / weightSumOthers others := by
  simp [calcOverall, h]

lemma calculateWeightedImpact_nonneg (category : categoryState) (others : List categoryState)
    (pts cur : ℚ)
    (hc : 0 ≤ category.points ∧ category.points ≤ category.possible ∧ 0 ≤ category.weight)
    (ho : ∀ c ∈ others, 0 ≤ c.points ∧ c.points ≤ c.possible ∧ 0 ≤ c.weight)
    (hpts : 0 < pts) :
    0 ≤ (calculateWeightedImpact category others pts cur).Gain ∧
      0 ≤ (calculateWeightedImpact category others pts cur).Loss := by
  obtain ⟨hp0, hpq, hw0⟩ := hc
  obtain ⟨hW0, hS0, hSW⟩ := othersSums_bounds others ho
  unfold calculateWeightedImpact
  by_cases hw : category.weight = 0
  · simp [hw]
  · rw [if_neg hw]
    have hwpos : 0 < category.weight := lt_of_le_of_ne hw0 (Ne.symm hw)
    have hDpos : 0 < category.weight + weightSumOthers others := by linarith
    have hD : category.weight + weightSumOthers others ≠ 0 := ne_of_gt hDpos
    by_cases hq : 0 < category.possible
    · have hq' : 0 < category.possible + pts := by linarith
      have hdec : decide (0 < category.possible) = true := decide_eq_true hq
      rw [hdec, calcOverall_incl _ _ _ _ hq, calcOverall_incl _ _ _ _ hq',
        calcOverall_incl _ _ _ _ hq', if_neg hD, if_neg hD, if_neg hD]
      dsimp only
      have hbest : category.points / category.possible ≤
          (category.points + pts) / (category.possible + pts) := by
        rw [div_le_div_iff₀ hq hq']
        nlinarith
      have hworst : category.points / (category.possible + pts) ≤
          category.points / category.possible := by
        rw [div_le_div_iff₀ hq' hq]
        nlinarith
      have hmulbest := mul_le_mul_of_nonneg_right hbest
        (by positivity : (0:ℚ) ≤ 100 * category.weight)
      have hmulworst := mul_le_mul_of_nonneg_right hworst
        (by positivity : (0:ℚ) ≤ 100 * category.weight)
      constructor
      · rw [sub_nonneg, div_le_div_iff₀ hDpos hDpos]
        nlinarith
      · rw [sub_nonneg, div_le_div_iff₀ hDpos hDpos]
        nlinarith
    · have hq0 : category.possible = 0 := le_antisymm (not_lt.mp hq) (le_trans hp0 hpq)
      have hp00 : category.points = 0 := le_antisymm (hpq.trans hq0.le) hp0
      have hq' : 0 < category.possible + pts := by rw [hq0]; simpa using hpts
      have hdec : decide (0 < category.possible) = false := decide_eq_false hq
      rw [hdec, calcOverall_excl _ _ _ _ hq _, calcOverall_incl _ _ _ _ hq',
        calcOverall_incl _ _ _ _ hq', if_neg hD, if_neg hD]
      dsimp only
      rw [hp00, hq0, zero_add, div_self (ne_of_gt hpts), zero_div, one_mul]
      have hworst0 : (0 : ℚ) * 100 * category.weight + weightedSumOthers others =
          weightedSumOthers others := by ring
      rw [hworst0]
      by_cases hW : weightSumOthers others = 0
      · have hS : weightedSumOthers others = 0 := by
          rw [hW] at hSW
          linarith
        rw [if_pos hW, hS]
        constructor
        · rw [sub_zero]
          exact div_nonneg (by linarith) hDpos.le
        · rw [zero_div]
          norm_num
      · have hWpos : 0 < weightSumOthers others := lt_of_le_of_ne hW0 (Ne.symm hW)
        rw [if_neg hW]
        constructor
        · rw [sub_nonneg, div_le_div_iff₀ hWpos hDpos]
          nlinarith
        · rw [sub_nonneg, div_le_div_iff₀ hDpos hWpos]
          nlinarith

lemma calculateNonWeightedImpact_nonneg (P T pts cur : ℚ)
    (hP : 0 ≤ P) (hPT : P ≤ T) (hpts : 0 < pts) :
    0 ≤ (calculateNonWeightedImpact P T pts cur).Gain ∧
      0 ≤ (calculateNonWeightedImpact P T pts cur).Loss := by
  simp only [calculateNonWeightedImpact]
  by_cases hT : 0 < T
  · have hT' : 0 < T + pts := by linarith
    rw [if_pos hT, if_pos hT', if_pos hT']
    have hbest : P / T ≤ (P + pts) / (T + pts) := by
      rw [div_le_div_iff₀ hT hT']
      nlinarith
    have hworst : P / (T + pts) ≤ P / T := by
      rw [div_le_div_iff₀ hT' hT]
      nlinarith
    constructor
    · rw [sub_nonneg]
      nlinarith
    · rw [sub_nonneg]
      nlinarith
  · have hT0 : T = 0 := le_antisymm (not_lt.mp hT) (hP.trans hPT)
    have hP0 : P = 0 := le_antisymm (hPT.trans hT0.le) hP
    have hT' : 0 < T + pts := by rw [hT0]; simpa using hpts
    rw [if_neg hT, if_pos hT', if_pos hT']
    rw [hP0, hT0, zero_add, div_self (ne_of_gt hpts), zero_div, one_mul, zero_mul]
    norm_num

/-! The claims. -/

/-- Claim C1 (corrected): in the weighted two-category scenario (A: weight 40,
190/200; B: weight 60, empty) with an ungraded 50-point assignment in A, the
code computes current overall 95.0, best-case overall 96.0 (gain 1.0) and
worst-case overall 76.0 (loss 19.0).  The claim's 96.67/1.67 best case does
not match the code (or the claim's own formula (190+50)/(200+50)). -/
theorem weightedScenario_impact :
    calcOverall categoryA [categoryB] 190 200 (decide ((0:ℚ) < 200)) = 95 ∧
    calcOverall categoryA [categoryB] (190 + 50) (200 + 50) true = 96 ∧
    calcOverall categoryA [categoryB] 190 (200 + 50) true = 76 ∧
    calculateWeightedImpact categoryA [categoryB] 50 95 =
      { Gain := 1, Loss := 19, IsWeighted := false } := by
  norm_num [calcOverall, calculateWeightedImpact, weightedSumOthers, weightSumOthers,
    categoryA, categoryB]

/-- Claim C1 counterexample: the best-case overall in the scenario is 96, not
96.67, and the gain is 1, not 1.67. -/
theorem weightedScenario_best_not_9667 :
    calculateWeightedImpact categoryA [categoryB] 50 95 =
      { Gain := 1, Loss := 19, IsWeighted := false } ∧
    ¬ calcOverall categoryA [categoryB] (190 + 50) (200 + 50) true = 9667 / 100 ∧
    ¬ (calculateWeightedImpact categoryA [categoryB] 50 95).Gain = 167 / 100 := by
  norm_num [calcOverall, calculateWeightedImpact, weightedSumOthers, weightSumOthers,
    categoryA, categoryB]

/-- Claim C2 (corrected): `missingAssignments` never consults the excused
flag, so a submission flagged both missing and excused (not awaiting a
re-grade, due inside the window) IS classified missing; the excused-first
precedence exists only in `isCompleted`, which the missing classifier does
not call. -/
theorem excusedMissing_classified_missing (now : ℤ) (a : EnrichedAssignment) (s : Submission)
    (hsub : a.submission = some s) (hm : s.missing = true) (hexc : s.excused = true)
    (hns : s.submittedAt = none) (hdue : ¬ now < a.dueAt)
    (hcut : ¬ a.dueAt < now - oneMonthAgo) :
    { a with status := determineStatus a } ∈ missingAssignments now false [a] := by
  rw [mem_missingAssignments]
  refine ⟨a, List.mem_singleton_self a, ?_, rfl⟩
  simp [selectsMissing, isMissingSub, awaitingGrade, hsub, hm, hns, hdue, hcut]

/-- Claim C2 witness: a concrete missing-and-excused submission lands in the
missing bucket, via the general theorem. -/
theorem excusedMissing_classified_missing_witness :
    { aBothFlagsW with status := determineStatus aBothFlagsW } ∈
      missingAssignments 864000 false [aBothFlagsW] :=
  excusedMissing_classified_missing 864000 aBothFlagsW subBothFlagsW rfl rfl rfl rfl
    (by decide) (by decide)

/-- Claim C2 counterexample: an excused (and missing-flagged) submission is
placed in the missing bucket, contradicting "excused assignments are never
classified missing". -/
theorem excusedMissing_in_bucket_concrete :
    subBothFlags.excused = true ∧ subBothFlags.missing = true ∧
    missingAssignments 864000 false [aBothFlags] =
      [{ aBothFlags with status := "Missing" }] := by decide

/-- Claim C3 (confirmed): the `isGraded` closure counts an assignment as
graded, with its recorded score, exactly when a submission info exists whose
score is present and either it is not flagged missing, or the score is
non-zero, or it carries an explicit graded timestamp. -/
theorem isGraded_characterization (m : Nat → Option submissionInfo) (aid : Nat) (s : ℚ) :
    isGraded m aid = (true, s) ↔
      ∃ info, m aid = some info ∧ info.score = some s ∧
        (info.missing = false ∨ s ≠ 0 ∨ info.graded = true) := by
  unfold isGraded
  cases hm : m aid with
  | none => simp
  | some info =>
    dsimp only
    cases hs : info.score with
    | none => simp [hs]
    | some sc =>
      dsimp only
      by_cases hcond : info.missing = true ∧ sc = 0 ∧ info.graded = false
      · rw [if_pos hcond]
        constructor
        · intro hEq
          simp [Prod.ext_iff] at hEq
        · rintro ⟨info', hinfo', hscore', hdisj⟩
          injection hinfo' with h
          subst h
          rcases hdisj with h1 | h2 | h3
          · rw [hcond.1] at h1
            exact absurd h1 (by simp)
          · rw [hs] at hscore'
            injection hscore' with h4
            exact absurd (h4 ▸ hcond.2.1) h2
          · rw [hcond.2.2] at h3
            exact absurd h3 (by simp)
      · rw [if_neg hcond]
        push_neg at hcond
        constructor
        · intro hEq
          have h2 : sc = s := by
            have h3 := congrArg Prod.snd hEq
            simpa using h3
          subst h2
          refine ⟨info, rfl, hs, ?_⟩
          by_cases hmiss : info.missing = true
          · by_cases hsc : sc = 0
            · have hg := hcond hmiss hsc
              refine Or.inr (Or.inr ?_)
              cases hb : info.graded
              · exact absurd hb hg
              · rfl
            · exact Or.inr (Or.inl hsc)
          · cases hb : info.missing
            · exact Or.inl rfl
            · exact absurd hb hmiss
        · rintro ⟨info', hinfo', hscore', hdisj⟩
          injection hinfo' with h
          subst h
          rw [hs] at hscore'
          injection hscore' with h4
          rw [h4]

/-- Claim C3 witness: a concrete non-missing graded score is counted. -/
theorem isGraded_characterization_witness : isGraded subInfoMapW 5 = (true, 40) :=
  (isGraded_characterization subInfoMapW 5 40).mpr ⟨infoGradedW, rfl, rfl, Or.inl rfl⟩

/-- Claim C4 (confirmed): for a graded-zero assignment, in both the weighted
and the unweighted calculator, the loss is 0 and the gain is exactly the
effect of adding the full points to the numerator with the denominator
unchanged (for flat totals this is pts/total*100). -/
theorem gradedZeroImpact_shape (category : categoryState) (others : List categoryState)
    (pts cur P T cur2 : ℚ) :
    (calculateGradedZeroWeightedImpact category others pts cur).Loss = 0 ∧
    (calculateGradedZeroWeightedImpact category others pts cur).Gain =
      calcOverallGZ category others (category.points + pts) category.possible -
        calcOverallGZ category others category.points category.possible ∧
    (calculateGradedZeroNonWeightedImpact P T pts cur2).Loss = 0 ∧
    (calculateGradedZeroNonWeightedImpact P T pts cur2).Gain =
      (if 0 < T then pts / T * 100 else 0) := by
  refine ⟨?_, ?_, ?_, ?_⟩
  · unfold calculateGradedZeroWeightedImpact
    split_ifs <;> rfl
  · unfold calculateGradedZeroWeightedImpact
    split_ifs with hw
    · unfold calcOverallGZ
      split_ifs with hq
      · norm_num
      · simp [hw]
    · rfl
  · rfl
  · unfold calculateGradedZeroNonWeightedImpact
    dsimp only
    split_ifs with hT
    · field_simp
      ring
    · norm_num

/-- Claim C5 (corrected): the weight-0 short-circuit exists only in the two
weighted calculators; there a weight-0 category always yields zero gain and
loss.  (In unweighted courses the group weight is ignored, see the
counterexample.) -/
theorem zeroWeightCategory_weighted_zero_impact (p q pts cur : ℚ)
    (others : List categoryState) :
    calculateWeightedImpact { points := p, possible := q, weight := 0 } others pts cur =
      { Gain := 0, Loss := 0, IsWeighted := false } ∧
    calculateGradedZeroWeightedImpact { points := p, possible := q, weight := 0 } others pts cur =
      { Gain := 0, Loss := 0, IsWeighted := false } := by
  constructor
  · simp [calculateWeightedImpact]
  · simp [calculateGradedZeroWeightedImpact]

/-- Claim C5 counterexample: in an unweighted course an ungraded assignment
whose group has weight 0 receives a non-zero impact. -/
theorem zeroWeightGroup_nonzero_impact :
    groupsZeroWeight.map AssignmentGroup.groupWeight = [0] ∧
    calculateAssignmentImpacts groupsZeroWeight submissionsZeroWeight 0 false none 12 =
      some { Gain := 2, Loss := 18, IsWeighted := false } ∧
    (2 : ℚ) ≠ 0 := by
  norm_num [calculateAssignmentImpacts, groupsZeroWeight, submissionsZeroWeight,
    subInfoByAssignment, submissionInfoOf, updateFn, isGraded, buildCategoryState,
    assignmentInPeriod, upsertState, lookupState, statesValuesExcept,
    calculateNonWeightedImpact, calculateGradedZeroNonWeightedImpact,
    calculateWeightedImpact, calculateGradedZeroWeightedImpact,
    weightedSumOthers, weightSumOthers, calcOverall, calcOverallGZ]

/-- Claim C6 (amended): for the ungraded-case calculators, gain and loss are
non-negative provided every category state (and the flat totals) satisfies
0 ≤ earned ≤ possible and weights are non-negative; the unrestricted claim
fails when earned exceeds possible (see the counterexample). -/
theorem ungradedImpact_nonneg (category : categoryState) (others : List categoryState)
    (pts cur P T cur2 : ℚ)
    (hc : 0 ≤ category.points ∧ category.points ≤ category.possible ∧ 0 ≤ category.weight)
    (ho : ∀ c ∈ others, 0 ≤ c.points ∧ c.points ≤ c.possible ∧ 0 ≤ c.weight)
    (hpts : 0 < pts) (hP : 0 ≤ P) (hPT : P ≤ T) :
    (0 ≤ (calculateWeightedImpact category others pts cur).Gain ∧
      0 ≤ (calculateWeightedImpact category others pts cur).Loss) ∧
    (0 ≤ (calculateNonWeightedImpact P T pts cur2).Gain ∧
      0 ≤ (calculateNonWeightedImpact P T pts cur2).Loss) :=
  ⟨calculateWeightedImpact_nonneg category others pts cur hc ho hpts,
    calculateNonWeightedImpact_nonneg P T pts cur2 hP hPT hpts⟩

/-- Claim C6 witness: the non-negativity theorem applied to the concrete
two-category scenario and to flat totals 40/50 with a 10-point assignment. -/
theorem ungradedImpact_nonneg_witness :
    (0 ≤ (calculateWeightedImpact categoryA [categoryB] 50 95).Gain ∧
      0 ≤ (calculateWeightedImpact categoryA [categoryB] 50 95).Loss) ∧
    (0 ≤ (calculateNonWeightedImpact 40 50 50 0).Gain ∧
      0 ≤ (calculateNonWeightedImpact 40 50 50 0).Loss) :=
  ungradedImpact_nonneg categoryA [categoryB] 50 95 40 50 0
    (by norm_num [categoryA]) (by norm_num [categoryB]) (by norm_num) (by norm_num)
    (by norm_num)

/-- Claim C6 counterexample: with extra credit already banked (totals 110/100)
an ungraded 10-point assignment has a negative computed gain. -/
theorem ungraded_gain_negative_extraCredit :
    (calculateNonWeightedImpact 110 100 10 0).Gain < 0 := by
  norm_num [calculateNonWeightedImpact]

/-- Claim C7 (confirmed): the three bucket selectors are pairwise exclusive
for any fixed `now` (an element of the today/tomorrow bucket is in neither of
the other two, and an element of the missing bucket satisfies neither other
selector), and each selector is unchanged under replacing an assignment's
impact and status — membership depends only on the due date (plus submission
flags for the missing bucket), never on grading/impact data. -/
theorem buckets_disjoint (now : ℤ) (showAll : Bool) (l : List EnrichedAssignment)
    (x : EnrichedAssignment) :
    (x ∈ upcomingAssignments now l → x ∉ weekAheadAssignments now l ∧
      selectsMissing now showAll x = false) ∧
    (x ∈ missingAssignments now showAll l →
      selectsUpcoming now x = false ∧ selectsWeekAhead now x = false) ∧
    (∀ imp st,
      selectsMissing now showAll { x with impact := imp, status := st } =
        selectsMissing now showAll x ∧
      selectsUpcoming now { x with impact := imp, status := st } = selectsUpcoming now x ∧
      selectsWeekAhead now { x with impact := imp, status := st } = selectsWeekAhead now x) := by
  refine ⟨?_, ?_, ?_⟩
  · intro hx
    obtain ⟨hxl, hsel⟩ := mem_upcomingAssignments.mp hx
    have hfut := selectsUpcoming_future hsel
    constructor
    · intro hw
      obtain ⟨-, hselW⟩ := mem_weekAheadAssignments.mp hw
      have hfar := selectsWeekAhead_far hselW
      have h3 := nextSchoolDay_bounds (truncateToDay now)
      have hs := secondsPerDay_pos
      rcases selectsUpcoming_cases hsel with ⟨hd, -⟩ | hd
      · rw [hd] at hfar
        linarith
      · rw [hd] at hfar
        linarith
    · cases hmx : selectsMissing now showAll x
      · rfl
      · exact absurd hfut (selectsMissing_past hmx)
  · intro hx
    obtain ⟨a, hal, hsel, rfl⟩ := mem_missingAssignments.mp hx
    have hpast := selectsMissing_past hsel
    have hupEq : selectsUpcoming now ({ a with status := determineStatus a } :
        EnrichedAssignment) = selectsUpcoming now a := rfl
    have hwaEq : selectsWeekAhead now ({ a with status := determineStatus a } :
        EnrichedAssignment) = selectsWeekAhead now a := rfl
    rw [hupEq, hwaEq]
    constructor
    · cases hu : selectsUpcoming now a
      · rfl
      · exact absurd (selectsUpcoming_future hu) hpast
    · cases hwa : selectsWeekAhead now a
      · rfl
      · have hfar := selectsWeekAhead_far hwa
        have h1 := truncate_bounds now
        have h2 := truncate_bounds a.dueAt
        have h3 := nextSchoolDay_bounds (truncateToDay now)
        have hs := secondsPerDay_pos
        exact absurd (by linarith : now < a.dueAt) hpast
  · intro imp st
    exact ⟨rfl, rfl, rfl⟩

/-- Claim C7 witness: the disjointness theorem applied to a concrete
assignment due on the school-calendar tomorrow of `now = 0`. -/
theorem buckets_disjoint_witness :
    aTomorrow ∉ weekAheadAssignments 0 [aTomorrow] ∧
      selectsMissing 0 false aTomorrow = false :=
  (buckets_disjoint 0 false [aTomorrow] aTomorrow).1 (by decide)

/-- Claim C8 (amended): an assignment whose submission awaits a re-grade
(submitted, grade-matches flag false) is excluded from the missing bucket —
every element of the missing bucket has `awaitingGrade = false`; it can
however still appear in the today/tomorrow or week-ahead buckets, whose
selectors ignore the submission (see the counterexample). -/
theorem awaitingRegrade_not_in_missing (now : ℤ) (showAll : Bool)
    (l : List EnrichedAssignment) (x : EnrichedAssignment)
    (hx : x ∈ missingAssignments now showAll l) :
    awaitingGrade x.submission = false := by
  obtain ⟨a, -, hsel, rfl⟩ := mem_missingAssignments.mp hx
  exact selectsMissing_notAwaiting hsel

/-- Claim C8 witness: the exclusion theorem applied to a concrete element of
a concrete missing bucket. -/
theorem awaitingRegrade_not_in_missing_witness :
    awaitingGrade ({ aNoSub with status := determineStatus aNoSub } :
      EnrichedAssignment).submission = false :=
  awaitingRegrade_not_in_missing 864000 false [aNoSub]
    { aNoSub with status := determineStatus aNoSub } (by decide)

/-- Claim C8 counterexample: a submitted assignment awaiting a re-grade and
due on the school-calendar tomorrow appears in the today/tomorrow bucket, so
it is not "shown in no other bucket". -/
theorem awaitingRegrade_in_upcoming :
    awaitingGrade aRegrade.submission = true ∧
    upcomingAssignments 0 [aRegrade] = [aRegrade] := by decide

/-- Claim C9 (amended): the enrichment step of `fetchCourseAssignments` drops
every assignment with no due date, so such an assignment reaches no bucket
and carries no impact in the report; it does, however, take part in the
impact calculation itself (see the counterexample). -/
theorem noDueDate_not_enriched (cn : String) (cba : Nat → String)
    (sbi : Nat → Option Submission) (impacts : Nat → Option AssignmentImpact)
    (l1 l2 : List Assignment) (a : Assignment) (h : a.dueAt = none) :
    enrichAssignments cn cba sbi impacts (l1 ++ a :: l2) =
      enrichAssignments cn cba sbi impacts (l1 ++ l2) := by
  induction l1 with
  | nil =>
    simp only [List.nil_append, enrichAssignments, List.foldr_cons, h]
  | cons b t ih =>
    simp only [List.cons_append, enrichAssignments, List.foldr_cons] at *
    rw [ih]

/-- Claim C9 witness: a concrete no-due-date assignment is dropped by the
enrichment step. -/
theorem noDueDate_not_enriched_witness :
    enrichAssignments "Course" (fun _ => "") (fun _ => none) (fun _ => none)
        ([] ++ aNoDueRaw :: []) =
      enrichAssignments "Course" (fun _ => "") (fun _ => none) (fun _ => none) ([] ++ []) :=
  noDueDate_not_enriched "Course" (fun _ => "") (fun _ => none) (fun _ => none) [] []
    aNoDueRaw rfl

/-- Claim C9 counterexample: no-due-date assignments do take part in the
impact calculation — assignment 3 (no due date) receives an impact entry, and
removing the graded no-due-date assignment 1 changes assignment 2's impact
from 10/3 gain / 40/3 loss to 100 gain / 0 loss. -/
theorem noDueDate_participates_in_impacts :
    calculateAssignmentImpacts groupsNoDue submissionsNoDue 0 false none 3 =
      some { Gain := 40 / 7, Loss := 160 / 7, IsWeighted := false } ∧
    calculateAssignmentImpacts groupsNoDue submissionsNoDue 0 false none 2 =
      some { Gain := 10 / 3, Loss := 40 / 3, IsWeighted := false } ∧
    calculateAssignmentImpacts groupsNoDueless submissionsNoDue 0 false none 2 =
      some { Gain := 100, Loss := 0, IsWeighted := false } := by
  norm_num [calculateAssignmentImpacts, groupsNoDue, groupsNoDueless, submissionsNoDue,
    subInfoByAssignment, submissionInfoOf, updateFn, isGraded, buildCategoryState,
    assignmentInPeriod, upsertState, lookupState, statesValuesExcept,
    calculateNonWeightedImpact, calculateGradedZeroNonWeightedImpact,
    calculateWeightedImpact, calculateGradedZeroWeightedImpact,
    weightedSumOthers, weightSumOthers, calcOverall, calcOverallGZ]

/-- Claim C10 (confirmed): `endOfSchoolWeek` always lands on a Friday, 5, 6
or 7 days out for Sunday, Saturday and Friday inputs and `5 - weekday` days
out otherwise. -/
theorem endOfSchoolWeek_isFriday (t : ℤ) :
    weekday (endOfSchoolWeek t) = 5 ∧
    endOfSchoolWeek t =
      t + (if weekday t = 0 then 5
           else if weekday t = 6 then 6
           else if weekday t = 5 then 7
           else 5 - weekday t) * secondsPerDay := by
  unfold endOfSchoolWeek weekday secondsPerDay
  split_ifs <;> constructor <;> omega
